import Mathlib

/-!
Shallow embedding of the Source Analysis & Resolution Engine of the
epistemic-check-mcp repository: the AST analyzer (symbol and function
signature extraction over Babel syntax trees), the import tracker
(import/export extraction, module resolution, dependency graph) and the
signature validator.

The filesystem is modelled as a predicate `fs : String → Bool` standing for
`existsSync`; the outcome of parsing a file is passed in explicitly as an
`Except` value standing for the parser cache's result.  Babel's `traverse`
is modelled as a pre-order walk over the syntax tree in which each visitor
fires when its node is entered: a parent node's visitor runs before the
visitors of the nodes nested inside it, and sibling statements are walked
in source order.
-/

namespace EpistemicCheck

/-! ## Strings and POSIX paths

`jsStartsWith` models `String.prototype.startsWith`; the path helpers model
the POSIX behaviour of Node's `path.dirname`, `path.resolve` and
`path.join` for the slash-separated, non-trailing-slash paths the engine
handles.
-/

/-- JS `s.startsWith(p)`, computed on the character lists. -/
def jsStartsWith (s p : String) : Bool :=
  p.data.isPrefixOf s.data

/-- Split a character list at every slash character. -/
def splitSlash : List Char → List (List Char)
  | [] => [[]]
  | c :: rest =>
    let r := splitSlash rest
    if c = '/' then [] :: r
    else
      match r with
      | [] => [[c]]
      | s :: ss => (c :: s) :: ss

/-- The slash-separated segments of a path string. -/
def pathSegments (p : String) : List String :=
  (splitSlash p.data).map (fun cs => String.mk cs)

/-- One step of Node path normalisation over a stack of kept segments
(most recent first): empty and dot segments vanish, a double dot pops the
stack (and vanishes at the root of an absolute path). -/
def normStep (abs : Bool) (stack : List String) (seg : String) : List String :=
  if seg = "" || seg = "." then stack
  else if seg = ".." then
    match stack with
    | [] => if abs then [] else [".."]
    | top :: rest => if top = ".." then ".." :: top :: rest else rest
  else seg :: stack

/-- Node POSIX path normalisation: resolve `.` and `..` segments and
collapse repeated slashes. -/
def normalizePath (p : String) : String :=
  let abs := jsStartsWith p "/"
  let stack := ((pathSegments p).foldl (normStep abs) []).reverse
  let body := String.intercalate "/" stack
  if abs then "/" ++ body
  else if body = "" then "." else body

/-- Node `path.resolve(fromDir, p)` as the engine uses it (with an absolute
`fromDir`): an absolute `p` is normalised as is, a relative one is joined
onto `fromDir` and normalised. -/
def pathResolve (fromDir p : String) : String :=
  if jsStartsWith p "/" then normalizePath p
  else normalizePath (fromDir ++ "/" ++ p)

/-- Node `path.join(a, b)`. -/
def pathJoin (a b : String) : String :=
  normalizePath (a ++ "/" ++ b)

/-- Node `path.dirname` for POSIX paths with no trailing slash. -/
def dirname (p : String) : String :=
  let rest := p.data.reverse.dropWhile (fun c => ¬ (c = '/'))
  match rest with
  | [] => "."
  | [_] => "/"
  | _ :: tail => String.mk tail.reverse

/-! ## Module resolution (`ImportTracker.resolveImportPath`) -/

/-- `ImportResolutionResult` from `import-tracker.ts`. -/
structure ImportResolutionResult where
  resolvedPath : Option String
  «exists» : Bool
  alternatives : Option (List String)
  error : Option String
deriving Repr, DecidableEq

/-- The fixed allow-list of Node built-in modules. -/
def builtInModules : List String :=
  ["fs", "path", "http", "https", "url", "querystring", "util", "events",
   "stream", "buffer", "crypto", "os", "cluster", "child_process", "net",
   "dgram", "dns", "tls", "zlib", "readline", "vm", "process", "assert",
   "timers", "async_hooks", "worker_threads", "console"]

/-- The ordered extension list probed by the resolver.  The empty extension
sits at the end, so the literal resolved path is probed after every
suffixed candidate. -/
def extensions : List String :=
  [".ts", ".tsx", ".js", ".jsx", ".mts", ".mjs", ".cjs", ""]

/-- `findAlternativePaths`: the source's simplified implementation returns
an empty list unconditionally. -/
def findAlternativePaths (_targetPath _searchDir : String) : List String := []

/-- The three sequential probe phases of `resolveImportPath` over the
resolved path, first hit wins: the extension loop (whose final empty
extension probes the literal path itself), the `index` files inside the
path as a directory, and the bare presence of a `package.json` in it
(which yields the directory path itself). -/
def probeCandidates (fs : String → Bool) (resolvedPath : String) :
    Option String :=
  let foundExt := extensions.findSome? (fun ext =>
    let pathWithExt := resolvedPath ++ ext
    if fs pathWithExt then some pathWithExt else none)
  let foundIndex := extensions.findSome? (fun ext =>
    let indexPath := pathJoin resolvedPath ("index" ++ ext)
    if fs indexPath then some indexPath else none)
  let foundPkg :=
    if fs (pathJoin resolvedPath "package.json") then some resolvedPath else none
  foundExt.orElse (fun _ => foundIndex.orElse (fun _ => foundPkg))

/-- `ImportTracker.resolveImportPath`, with `existsSync` abstracted into
the predicate `fs`. -/
def resolveImportPath (fs : String → Bool) (importPath fromFile : String) :
    ImportResolutionResult :=
  if builtInModules.contains importPath || jsStartsWith importPath "node:" then
    ⟨some importPath, true, none, none⟩
  else if !jsStartsWith importPath "." && !jsStartsWith importPath "/" then
    ⟨some importPath, true, none, none⟩
  else
    let fromDir := dirname fromFile
    let resolvedPath := pathResolve fromDir importPath
    match probeCandidates fs resolvedPath with
    | some foundPath => ⟨some foundPath, true, none, none⟩
    | none =>
      ⟨none, false, some (findAlternativePaths resolvedPath fromDir),
        some ("Import path '" ++ importPath ++ "' could not be resolved from "
          ++ fromFile)⟩

/-! ## Data model (`types/index.ts`)

The optional source-location fields (`line`, `column`) are passthrough data
copied from parser locations; they are omitted from the embedding.
-/

/-- `SymbolInfo`. -/
structure SymbolInfo where
  name : String
  type : String
  filePath : String
  signature : Option String
  exported : Bool
deriving Repr, DecidableEq

/-- `ImportInfo`. -/
structure ImportInfo where
  path : String
  source : String
  specifiers : List String
  isTypeOnly : Bool
deriving Repr, DecidableEq

/-- `ExportInfo`. -/
structure ExportInfo where
  name : String
  type : String
  filePath : String
  signature : Option String
deriving Repr, DecidableEq

/-- One entry of `FunctionSignature.parameters`. -/
structure SigParam where
  name : String
  type : Option String
  optional : Bool
deriving Repr, DecidableEq

/-- `FunctionSignature`. -/
structure FunctionSignature where
  name : String
  parameters : List SigParam
  returnType : Option String
  filePath : String
  isAsync : Bool
  isGenerator : Bool
deriving Repr, DecidableEq

/-! ## Syntax trees

The fragment of the Babel AST the analyzer inspects.  Everything the
analyzer does not look into is collapsed into an `other` constructor.
-/

/-- The TS type shapes `tsTypeToString` distinguishes.  A type reference
whose name is not a plain identifier falls into `otherType` (the source
guards with `t.isIdentifier(type.typeName)`). -/
inductive TSType where
  | stringKeyword
  | numberKeyword
  | booleanKeyword
  | voidKeyword
  | anyKeyword
  | unknownKeyword
  | typeRef (name : String)
  | arrayType (elem : TSType)
  | unionType (types : List TSType)
  | otherType
deriving Repr

/-- A binding pattern: the analyzer only inspects `Identifier` patterns
(name, `optional` flag, TS type), everything else takes fallbacks. -/
inductive Pat where
  | ident (name : String) (optional : Bool) (typeAnn : Option TSType)
  | otherPat
deriving Repr

/-- A `FunctionDeclaration` node (`id` is `none` for an anonymous default
export). -/
structure FunctionDecl where
  id : Option String
  params : List Pat
  async : Bool
  generator : Bool
  returnType : Option TSType
deriving Repr

/-- A member of a class body; `keyId` is `some` when the key is a plain
identifier. -/
inductive ClassMember where
  | method (keyId : Option String) (computed : Bool) (params : List Pat)
      (async : Bool) (generator : Bool) (returnType : Option TSType)
  | otherMember
deriving Repr

/-- The declaration forms the extractors branch on. -/
inductive Decl where
  | functionDecl (f : FunctionDecl)
  | classDecl (id : Option String) (body : List ClassMember)
  | variableDecl (declarators : List Pat)
  | tsTypeAlias (id : String)
  | tsInterface (id : String)
deriving Repr

/-- The expression under an `ExportDefaultDeclaration`. -/
inductive DefaultDecl where
  | functionDecl (f : FunctionDecl)
  | classDecl (id : Option String) (body : List ClassMember)
  | identExpr (name : String)
  | otherExpr
deriving Repr

/-- A specifier of a static `ImportDeclaration`. -/
inductive ImportSpec where
  | defaultSpec (localName : String)
  | namespaceSpec (localName : String)
  | namedSpec (importedName localName : String)
  | otherSpec
deriving Repr

/-- An `ExportSpecifier` of an `export { local as exported }` statement. -/
structure ExportSpec where
  localName : String
  exportedName : String
deriving Repr, DecidableEq

/-- The callee of a `CallExpression`. -/
inductive Callee where
  | identCallee (name : String)
  | memberCallee (propName : Option String)
  | otherCallee
deriving Repr

/-- An argument of a `CallExpression`. -/
inductive Arg where
  | strLit (value : String)
  | otherArg
deriving Repr

/-- A top-level statement of a parsed file. -/
inductive Stmt where
  | declStmt (d : Decl)
  | importDecl (source : String) (specifiers : List ImportSpec)
      (typeKind : Bool)
  | exportNamed (declaration : Option Decl) (specifiers : List ExportSpec)
  | exportDefault (declaration : DefaultDecl)
  | exportAll (source : String)
  | exprStmt (callee : Callee) (args : List Arg)
  | otherStmt
deriving Repr

/-- The node kinds some visitor dispatches on. -/
inductive Node where
  | functionDecl (f : FunctionDecl)
  | variableDecl (declarators : List Pat)
  | classDecl (id : Option String) (body : List ClassMember)
  | classMethod (keyId : Option String) (computed : Bool) (params : List Pat)
      (async : Bool) (generator : Bool) (returnType : Option TSType)
  | tsInterface (id : String)
  | tsTypeAlias (id : String)
  | exportNamed (declaration : Option Decl) (specifiers : List ExportSpec)
  | exportDefault (declaration : DefaultDecl)
  | exportAll (source : String)
  | importDecl (source : String) (specifiers : List ImportSpec)
      (typeKind : Bool)
  | callExpr (callee : Callee) (args : List Arg)
deriving Repr

/-- The visitable node of one class member (its `ClassMethod` child). -/
def methodNode : ClassMember → Option Node
  | .method k c p a g r => some (.classMethod k c p a g r)
  | .otherMember => none

/-- Pre-order node list of a declaration: the declaration itself, then its
class-method children (for a class). -/
def declNodes : Decl → List Node
  | .functionDecl f => [.functionDecl f]
  | .classDecl id body => .classDecl id body :: body.filterMap methodNode
  | .variableDecl ds => [.variableDecl ds]
  | .tsTypeAlias id => [.tsTypeAlias id]
  | .tsInterface id => [.tsInterface id]

/-- Pre-order node list of one statement.  An export statement is entered
before the declaration nested inside it, exactly as Babel fires an
`ExportNamedDeclaration`/`ExportDefaultDeclaration` visitor before the
visitor of the wrapped `FunctionDeclaration`/`ClassDeclaration` child. -/
def stmtNodes : Stmt → List Node
  | .declStmt d => declNodes d
  | .importDecl s sp k => [.importDecl s sp k]
  | .exportNamed d sp =>
    .exportNamed d sp ::
      (match d with
       | some d0 => declNodes d0
       | none => [])
  | .exportDefault dd =>
    .exportDefault dd ::
      (match dd with
       | .functionDecl f => [.functionDecl f]
       | .classDecl id body => declNodes (.classDecl id body)
       | _ => [])
  | .exportAll s => [.exportAll s]
  | .exprStmt c a => [.callExpr c a]
  | .otherStmt => []

/-- Babel `traverse`: every node of the file in pre-order (visitors fire on
enter, parents before their children, statements in source order). -/
def programNodes (prog : List Stmt) : List Node :=
  prog.foldr (fun s acc => stmtNodes s ++ acc) []

/-! ## Signature rendering (`ASTAnalyzer`) -/

mutual

/-- `ASTAnalyzer.tsTypeToString`. -/
def tsTypeToString : TSType → String
  | .stringKeyword => "string"
  | .numberKeyword => "number"
  | .booleanKeyword => "boolean"
  | .voidKeyword => "void"
  | .anyKeyword => "any"
  | .unknownKeyword => "unknown"
  | .typeRef name => name
  | .arrayType elem => tsTypeToString elem ++ "[]"
  | .unionType ts => String.intercalate " | " (tsTypesToStrings ts)
  | .otherType => "unknown"

/-- The member-wise rendering of a union's alternatives. -/
def tsTypesToStrings : List TSType → List String
  | [] => []
  | t :: ts => tsTypeToString t :: tsTypesToStrings ts

end

/-- `ASTAnalyzer.extractTypeAnn` (the parameter type annotation as a
string): only an identifier pattern with a TS annotation yields one. -/
def extractTypeAnn : Pat → Option String
  | .ident _ _ (some t) => some (tsTypeToString t)
  | _ => none

/-- `ASTAnalyzer.extractReturnType`. -/
def extractReturnType (returnType : Option TSType) : Option String :=
  returnType.map tsTypeToString

/-- How one parameter is displayed inside a rendered signature:
`name`/`name?` for identifiers, the fallback for any other pattern. -/
def paramDisplay : Pat → String
  | .ident name opt _ => if opt then name ++ "?" else name
  | .otherPat => "(...)"

/-- `ASTAnalyzer.generateFunctionSignature`, instantiated at function
declarations (the `isArrowFunctionExpression` tests of the source are
false there, so the `function`/`function*` markers are always added).
Parameter type annotations do not appear: only the name and the optional
marker are rendered. -/
def generateFunctionSignature (node : FunctionDecl) : String :=
  let name := node.id.getD "anonymous"
  let params := String.intercalate ", " (node.params.map paramDisplay)
  let sig := name ++ "(" ++ params ++ ")"
  let sig := if node.async then "async " ++ sig else sig
  let sig := if node.generator then "function* " ++ sig else "function " ++ sig
  match extractReturnType node.returnType with
  | some rt => sig ++ ": " ++ rt
  | none => sig

/-- `ASTAnalyzer.generateMethodSignature`. -/
def generateMethodSignature (keyId : Option String) (params : List Pat)
    (async generator : Bool) (returnType : Option TSType) : String :=
  let name := keyId.getD "anonymous"
  let sig := name ++ "(" ++ String.intercalate ", " (params.map paramDisplay) ++ ")"
  let sig := if async then "async " ++ sig else sig
  let sig := if generator then "*" ++ sig else sig
  match extractReturnType returnType with
  | some rt => sig ++ ": " ++ rt
  | none => sig

/-! ## Symbol extraction (`ASTAnalyzer.extractSymbols`)

Extraction is a single Babel traversal whose visitor closure pushes
declaration symbols and, on export nodes, looks previously pushed symbols
up by name to flip their `exported` flag.  Because visitors fire on enter,
the export visitors run before the declaration visitors of the nodes
nested inside them.
-/

/-- `symbols.find(s => s.name === n)` followed by `symbol.exported = true`:
mark the first symbol carrying the given name, leave the rest alone. -/
def promoteExport (n : String) : List SymbolInfo → List SymbolInfo
  | [] => []
  | s :: rest =>
    if s.name = n then { s with exported := true } :: rest
    else s :: promoteExport n rest

/-- The visitor dispatch of `extractSymbols` at one entered node. -/
def symbolStep (filePath : String) (symbols : List SymbolInfo) :
    Node → List SymbolInfo
  | .functionDecl f =>
    match f.id with
    | some n =>
      symbols ++ [⟨n, "function", filePath,
        some (generateFunctionSignature f), false⟩]
    | none => symbols
  | .variableDecl ds =>
    ds.foldl (fun acc d =>
      match d with
      | .ident n _ _ => acc ++ [⟨n, "variable", filePath, none, false⟩]
      | .otherPat => acc) symbols
  | .classDecl id body =>
    let syms :=
      match id with
      | some n => symbols ++ [⟨n, "class", filePath, none, false⟩]
      | none => symbols
    body.foldl (fun acc m =>
      match m with
      | .method (some k) false params a g r =>
        acc ++ [⟨k, "function", filePath,
          some (generateMethodSignature (some k) params a g r), false⟩]
      | _ => acc) syms
  | .tsInterface n => symbols ++ [⟨n, "interface", filePath, none, false⟩]
  | .tsTypeAlias n => symbols ++ [⟨n, "type", filePath, none, false⟩]
  | .exportNamed d specs =>
    let syms :=
      match d with
      | some (.functionDecl f) =>
        match f.id with
        | some n => promoteExport n symbols
        | none => symbols
      | some (.classDecl (some n) _) => promoteExport n symbols
      | some (.variableDecl ds) =>
        ds.foldl (fun acc dd =>
          match dd with
          | .ident n _ _ => promoteExport n acc
          | .otherPat => acc) symbols
      | _ => symbols
    specs.foldl (fun acc sp => promoteExport sp.localName acc) syms
  | .exportDefault dd =>
    match dd with
    | .functionDecl f =>
      match f.id with
      | some n => promoteExport n symbols
      | none => symbols
    | .classDecl (some n) _ => promoteExport n symbols
    | _ => symbols
  | _ => symbols

/-- `ASTAnalyzer.extractSymbols`. -/
def extractSymbols (prog : List Stmt) (filePath : String) : List SymbolInfo :=
  (programNodes prog).foldl (symbolStep filePath) []

/-! ## Function signature extraction (`ASTAnalyzer.extractFunctionSignatures`) -/

/-- One parameter of an extracted `FunctionSignature`: the name falls back
to `unknown` for non-identifier patterns, `optional` holds only for an
identifier carrying the flag. -/
def paramSig (p : Pat) : SigParam :=
  match p with
  | .ident n opt _ => ⟨n, extractTypeAnn p, opt⟩
  | .otherPat => ⟨"unknown", extractTypeAnn p, false⟩

/-- The visitor dispatch of `extractFunctionSignatures`: function
declarations and class methods (the `ClassMethod` visitor checks the key
is an identifier but, unlike `extractSymbols`, not `computed`). -/
def signatureStep (filePath : String) (sigs : List FunctionSignature) :
    Node → List FunctionSignature
  | .functionDecl f =>
    match f.id with
    | some n =>
      sigs ++ [⟨n, f.params.map paramSig, extractReturnType f.returnType,
        filePath, f.async, f.generator⟩]
    | none => sigs
  | .classMethod keyId _ params a g rt =>
    match keyId with
    | some n =>
      sigs ++ [⟨n, params.map paramSig, extractReturnType rt, filePath, a, g⟩]
    | none => sigs
  | _ => sigs

/-- `ASTAnalyzer.extractFunctionSignatures`. -/
def extractFunctionSignatures (prog : List Stmt) (filePath : String) :
    List FunctionSignature :=
  (programNodes prog).foldl (signatureStep filePath) []

/-! ## Import/export extraction (`ImportTracker`) -/

/-- How one static import specifier renders into `ImportInfo.specifiers`
(the unreachable fallback renders as the empty string, which the source
filters out with `.filter(Boolean)`). -/
def importSpecName : ImportSpec → String
  | .defaultSpec l => l
  | .namespaceSpec l => "* as " ++ l
  | .namedSpec imp l => if imp = l then imp else imp ++ " as " ++ l
  | .otherSpec => ""

/-- The visitor dispatch of `extractImports`.  The visitor object passed
to `traverse` in the source declares two `CallExpression` properties; by
JS duplicate-key semantics the later one (the `require` visitor) is the
only one installed, so the dynamic-`import(...)` visitor written above it
is dead and dynamic imports yield no record. -/
def importStep (imports : List ImportInfo) : Node → List ImportInfo
  | .importDecl source specs typeKind =>
    let specifiers := (specs.map importSpecName).filter (fun s => ¬ (s = ""))
    imports ++ [⟨source, source, specifiers, typeKind⟩]
  | .callExpr callee args =>
    match callee, args with
    | .identCallee "require", .strLit v :: _ =>
      imports ++ [⟨v, v, ["require"], false⟩]
    | _, _ => imports
  | _ => imports

/-- The pure traversal part of `ImportTracker.extractImports`. -/
def extractImportsFromAst (prog : List Stmt) : List ImportInfo :=
  (programNodes prog).foldl importStep []

/-- The visitor dispatch of `extractExports`.  A named export pushes one
record per exported declaration or specifier (specifiers use the
`exported` name); a default export pushes a record named `default`; a
re-export-all pushes a record named `*` whose `filePath` field holds the
source specifier of the re-exported module. -/
def exportStep (filePath : String) (exports : List ExportInfo) :
    Node → List ExportInfo
  | .exportNamed d specs =>
    let exps :=
      match d with
      | some (.functionDecl f) =>
        match f.id with
        | some n =>
          exports ++ [⟨n, "function", filePath,
            some (generateFunctionSignature f)⟩]
        | none => exports
      | some (.classDecl (some n) _) => exports ++ [⟨n, "class", filePath, none⟩]
      | some (.variableDecl ds) =>
        ds.foldl (fun acc dd =>
          match dd with
          | .ident n _ _ => acc ++ [⟨n, "variable", filePath, none⟩]
          | .otherPat => acc) exports
      | some (.tsTypeAlias n) => exports ++ [⟨n, "type", filePath, none⟩]
      | some (.tsInterface n) => exports ++ [⟨n, "interface", filePath, none⟩]
      | _ => exports
    specs.foldl (fun acc sp =>
      acc ++ [⟨sp.exportedName, "variable", filePath, none⟩]) exps
  | .exportDefault dd =>
    match dd with
    | .functionDecl f =>
      match f.id with
      | some _ =>
        exports ++ [⟨"default", "function", filePath,
          some (generateFunctionSignature f)⟩]
      | none => exports
    | .classDecl (some _) _ => exports ++ [⟨"default", "class", filePath, none⟩]
    | .identExpr _ => exports ++ [⟨"default", "variable", filePath, none⟩]
    | _ => exports
  | .exportAll source => exports ++ [⟨"*", "variable", source, none⟩]
  | _ => exports

/-- The pure traversal part of `ImportTracker.extractExports`. -/
def extractExportsFromAst (prog : List Stmt) (filePath : String) :
    List ExportInfo :=
  (programNodes prog).foldl (exportStep filePath) []

/-! ## Error handling (`AnalysisError` and the extraction catch blocks) -/

/-- The error taxonomy visible to the tracker: an `AnalysisError` (message
plus optional file path) versus any other thrown error. -/
inductive JsError where
  | analysisError (message : String) (filePath : Option String)
  | otherError (message : String)
deriving Repr, DecidableEq

/-- The shared `catch` logic of `extractImports`/`extractExports`: an
`AnalysisError` is re-raised unchanged, anything else is wrapped once into
an `AnalysisError` carrying the originating file path. -/
def wrapAnalysisError (e : JsError) (wrapMsg filePath : String) : JsError :=
  match e with
  | .analysisError _ _ => e
  | .otherError m => .analysisError (wrapMsg ++ ": " ++ m) (some filePath)

/-- `ImportTracker.extractImports` with the parse outcome (the only
fallible step of the body) made explicit. -/
def extractImports (parsed : Except JsError (List Stmt)) (filePath : String) :
    Except JsError (List ImportInfo) :=
  match parsed with
  | .ok ast => .ok (extractImportsFromAst ast)
  | .error e => .error (wrapAnalysisError e "Failed to extract imports" filePath)

/-- `ImportTracker.extractExports` with the parse outcome made explicit. -/
def extractExports (parsed : Except JsError (List Stmt)) (filePath : String) :
    Except JsError (List ExportInfo) :=
  match parsed with
  | .ok ast => .ok (extractExportsFromAst ast filePath)
  | .error e => .error (wrapAnalysisError e "Failed to extract exports" filePath)

/-! ## Dependency graph (`ImportTracker.buildDependencyGraph`, `findImporters`)

Both operations consume the per-file import lists; `importsOf` stands for
a successful `extractImports` per file.  The graph is a JS `Map` modelled
as an insertion-ordered association list with `Map.set` semantics, and
each dependency set is a JS `Set` modelled as an insertion-ordered
duplicate-free list.
-/

/-- JS `Map.set`: replace the binding when the key is present, append
otherwise. -/
def mapSet (m : List (String × List String)) (k : String) (v : List String) :
    List (String × List String) :=
  if m.any (fun kv => kv.1 == k) then
    m.map (fun kv => if kv.1 == k then (k, v) else kv)
  else m ++ [(k, v)]

/-- JS `Set.add` on an insertion-ordered duplicate-free list. -/
def addDep (deps : List String) (p : String) : List String :=
  if deps.contains p then deps else deps ++ [p]

/-- One iteration of the dependency-collecting loop: an import whose
specifier starts with `.` or `/` is resolved, and the resolved path is
kept when the resolution exists (the source tests `resolved.exists &&
resolved.resolvedPath`, so a JS-falsy empty resolved path is also
dropped). -/
def depStep (fs : String → Bool) (filePath : String)
    (deps : List String) (imp : ImportInfo) : List String :=
  if !jsStartsWith imp.path "." && !jsStartsWith imp.path "/" then deps
  else
    let resolved := resolveImportPath fs imp.path filePath
    match resolved.resolvedPath with
    | some p => if resolved.«exists» && !(p == "") then addDep deps p else deps
    | none => deps

/-- The dependency list one file contributes to the graph: the loop body
of `buildDependencyGraph` folded over the file's imports. -/
def fileDependencies (fs : String → Bool)
    (importsOf : String → List ImportInfo) (filePath : String) : List String :=
  (importsOf filePath).foldl (depStep fs filePath) []

/-- `ImportTracker.buildDependencyGraph`. -/
def buildDependencyGraph (fs : String → Bool)
    (importsOf : String → List ImportInfo) (filePaths : List String) :
    List (String × List String) :=
  filePaths.foldl (fun graph filePath =>
    mapSet graph filePath (fileDependencies fs importsOf filePath)) []

/-- `ImportTracker.findImporters`: keep, in order, every candidate file one
of whose imports resolves exactly to the target path (the source breaks
out of the inner loop at the first match, keeping each file once). -/
def findImporters (fs : String → Bool)
    (importsOf : String → List ImportInfo) (filePath : String)
    (allFiles : List String) : List String :=
  allFiles.foldl (fun importers file =>
    if (importsOf file).any (fun imp =>
        (resolveImportPath fs imp.path file).resolvedPath == some filePath)
    then importers ++ [file]
    else importers) []

/-! ## Signature validation (`SignatureValidator`) -/

/-- `SignatureMatchResult` (confidence is 0 or 1, kept as a natural
number). -/
structure SignatureMatchResult where
  valid : Bool
  expectedSignature : Option String
  actualSignature : String
  error : Option String
  confidence : Nat
deriving Repr, DecidableEq

/-- `SignatureValidator.formatSignature`: `name[?][: Type]` per parameter,
an `async` marker, and the return type when annotated. -/
def formatSignature (signature : FunctionSignature) : String :=
  let params := String.intercalate ", " (signature.parameters.map (fun p =>
    let name := if p.optional then p.name ++ "?" else p.name
    match p.type with
    | some t => name ++ ": " ++ t
    | none => name))
  let sig := signature.name
  let sig := if signature.isAsync then "async " ++ sig else sig
  let sig := sig ++ "(" ++ params ++ ")"
  match signature.returnType with
  | some rt => sig ++ ": " ++ rt
  | none => sig

/-- `SignatureValidator.getSignatures`: NOTE the `catch` branch returns an
empty list, so a parse failure is swallowed here and indistinguishable
from a file that declares no functions. -/
def getSignatures (parsed : Except JsError (List Stmt)) (filePath : String) :
    List FunctionSignature :=
  match parsed with
  | .ok ast => extractFunctionSignatures ast filePath
  | .error _ => []

/-- The `actualSignature` string every branch of `validateFunctionCall`
builds. -/
def actualSig (functionName : String) (args : List String) : String :=
  functionName ++ "(" ++ String.intercalate ", " args ++ ")"

/-- `SignatureValidator.validateFunctionCall`.  The source's leading
`if (!filePath)` is JS truthiness: an absent or empty path takes the
no-file-path branch.  The surrounding `try/catch` never fires in the
model because `getSignatures` is total. -/
def validateFunctionCall (parsed : Except JsError (List Stmt))
    (functionName : String) (args : List String) (filePath : Option String) :
    SignatureMatchResult :=
  if filePath.getD "" = "" then
    ⟨false, none, actualSig functionName args,
      some "No file path provided for signature lookup", 0⟩
  else
    let fp := filePath.getD ""
    let signatures := getSignatures parsed fp
    match signatures.find? (fun sig => sig.name == functionName) with
    | none =>
      ⟨false, none, actualSig functionName args,
        some ("Function '" ++ functionName ++ "' not found in " ++ fp), 0⟩
    | some matchingSignature =>
      let expectedMinArgs :=
        (matchingSignature.parameters.filter (fun p => !p.optional)).length
      let expectedMaxArgs := matchingSignature.parameters.length
      let actualArgsCount := args.length
      if actualArgsCount < expectedMinArgs then
        ⟨false, some (formatSignature matchingSignature),
          actualSig functionName args,
          some ("Expected at least " ++ toString expectedMinArgs
            ++ " arguments, got " ++ toString actualArgsCount), 1⟩
      else if actualArgsCount > expectedMaxArgs then
        ⟨false, some (formatSignature matchingSignature),
          actualSig functionName args,
          some ("Expected at most " ++ toString expectedMaxArgs
            ++ " arguments, got " ++ toString actualArgsCount), 1⟩
      else
        ⟨true, some (formatSignature matchingSignature),
          actualSig functionName args, none, 1⟩

/-! ## Concrete inputs used by the witnesses and counterexamples -/

/-- The declaration of `export function add(a: number, b: number) {}`. -/
def addDecl : FunctionDecl :=
  ⟨some "add",
    [.ident "a" false (some .numberKeyword), .ident "b" false (some .numberKeyword)],
    false, false, none⟩

/-- The file `a.ts` containing exactly
`export function add(a: number, b: number) {}`. -/
def addProg : List Stmt := [.exportNamed (some (.functionDecl addDecl)) []]

/-- A parameter pattern with its TS type annotation erased. -/
def eraseTypeAnn : Pat → Pat
  | .ident n o _ => .ident n o none
  | .otherPat => .otherPat

/-- A file declaring exactly `function f(a, b?) {}`. -/
def fDemoProg : List Stmt :=
  [.declStmt (.functionDecl
    ⟨some "f", [.ident "a" false none, .ident "b" true none], false, false, none⟩)]

/-- A filesystem on which both `/a/x` and `/a/x.ts` exist. -/
def fsBoth : String → Bool :=
  fun p => p == "/a/x.ts" || p == "/a/x"

/-- A filesystem on which only `/w/b.ts` exists. -/
def demoFs : String → Bool := fun p => p == "/w/b.ts"

/-- Per-file imports where `/w/a.ts` imports `./b.ts` and no other file
imports anything. -/
def demoImportsOf : String → List ImportInfo :=
  fun f => if f == "/w/a.ts" then [⟨"./b.ts", "./b.ts", ["b"], false⟩] else []

/-! ## Claims -/

/-- C1: the export-promotion logic of `extractSymbols` runs inside the
same single traversal as the declaration visitors and fires when the
export node is entered, before the declaration nested inside it has been
pushed.  An inline `export function f() {}` therefore yields a Symbol with
`exported = false` — against the code's own comment (`// Will be updated
by export checker`) and the spec's complete-second-pass promotion — and
promotion depends on where an `export { f }` statement sits: a trailing
one promotes, a leading one does not. -/
theorem extractSymbols_inline_export_not_promoted :
    (extractSymbols
        [.exportNamed (some (.functionDecl ⟨some "f", [], false, false, none⟩)) []]
        "a.ts"
      = [⟨"f", "function", "a.ts", some "function f()", false⟩])
    ∧ (extractSymbols
        [.declStmt (.functionDecl ⟨some "f", [], false, false, none⟩),
         .exportNamed none [⟨"f", "f"⟩]] "a.ts"
      = [⟨"f", "function", "a.ts", some "function f()", true⟩])
    ∧ (extractSymbols
        [.exportNamed none [⟨"f", "f"⟩],
         .declStmt (.functionDecl ⟨some "f", [], false, false, none⟩)] "a.ts"
      = [⟨"f", "function", "a.ts", some "function f()", false⟩]) :=
  ⟨rfl, rfl, rfl⟩

/-- C2 (counterexample): on the file
`export function add(a: number, b: number) {}` the single Symbol produced
is not the claimed `{name: add, kind: function, exported: true,
signature: "add(a: number, b: number)"}`: its signature carries the
`function` marker and no parameter types, and `exported` is `false`. -/
theorem extractSymbols_add_scenario_cex :
    extractSymbols addProg "a.ts"
      = [⟨"add", "function", "a.ts", some "function add(a, b)", false⟩]
    ∧ ¬ (extractSymbols addProg "a.ts"
      = [⟨"add", "function", "a.ts", some "add(a: number, b: number)", true⟩]) :=
  ⟨rfl, by decide⟩

/-- C2 (amended): the scenario file yields exactly one Symbol
`{name: add, kind: function, exported: false, signature:
"function add(a, b)"}`, and in general the Symbol signature rendered by
`generateFunctionSignature` never depends on the parameter type
annotations — it shows only names and optional markers. -/
theorem extractSymbols_add_scenario :
    extractSymbols addProg "a.ts"
      = [⟨"add", "function", "a.ts", some "function add(a, b)", false⟩]
    ∧ ∀ f : FunctionDecl,
        generateFunctionSignature { f with params := f.params.map eraseTypeAnn }
          = generateFunctionSignature f := by
  constructor
  · rfl
  · intro f
    unfold generateFunctionSignature
    have hmap : (f.params.map eraseTypeAnn).map paramDisplay
        = f.params.map paramDisplay := by
      rw [List.map_map]
      refine List.map_congr_left ?_
      intro p _
      cases p <;> rfl
    simp only [hmap]

/-- C3: dynamic `import("m")` calls yield no `ImportInfo` record at all —
the dynamic-import visitor is shadowed by the second `CallExpression` key
of the visitor object, so only the `require` visitor runs — while
`require("m")` yields a record with specifiers `["require"]` and a
non-literal first argument yields nothing for either form. -/
theorem extractImports_dynamic_import_untracked :
    extractImportsFromAst [.exprStmt (.identCallee "import") [.strLit "m"]] = []
    ∧ extractImportsFromAst [.exprStmt (.identCallee "require") [.strLit "m"]]
        = [⟨"m", "m", ["require"], false⟩]
    ∧ extractImportsFromAst [.exprStmt (.identCallee "require") [.otherArg]] = []
    ∧ extractImportsFromAst [.exprStmt (.identCallee "import") [.otherArg]] = [] :=
  ⟨rfl, rfl, rfl, rfl⟩

/-- C9: a failure inside `extractImports`/`extractExports` that is already
an `AnalysisError` is re-raised as the very same error value, and any
other failure is wrapped exactly once into an `AnalysisError` carrying the
originating file path. -/
theorem extract_error_wrapping (m : String) (op : Option String) (fp : String) :
    extractImports (.error (.analysisError m op)) fp
        = .error (.analysisError m op)
    ∧ extractExports (.error (.analysisError m op)) fp
        = .error (.analysisError m op)
    ∧ extractImports (.error (.otherError m)) fp
        = .error (.analysisError ("Failed to extract imports: " ++ m) (some fp))
    ∧ extractExports (.error (.otherError m)) fp
        = .error (.analysisError ("Failed to extract exports: " ++ m) (some fp)) :=
  ⟨rfl, rfl, rfl, rfl⟩

/-- C6: a bare package-style specifier (no leading `.` or `/`, not a
built-in, no `node:` marker) always resolves to itself with
`exists = true`, for every filesystem state and every importing file: the
disk is never probed. -/
theorem resolveImportPath_bare_package
    (fs : String → Bool) (importPath fromFile : String)
    (hdot : jsStartsWith importPath "." = false)
    (hslash : jsStartsWith importPath "/" = false)
    (hb : builtInModules.contains importPath = false)
    (hn : jsStartsWith importPath "node:" = false) :
    resolveImportPath fs importPath fromFile
      = ⟨some importPath, true, none, none⟩ := by
  unfold resolveImportPath
  rw [hb, hn, hdot, hslash]
  simp

/-- C6 witness: `lodash` from `/w/a.ts` on an empty filesystem. -/
theorem resolveImportPath_bare_package_witness :
    resolveImportPath (fun _ => false) "lodash" "/w/a.ts"
      = ⟨some "lodash", true, none, none⟩ :=
  resolveImportPath_bare_package (fun _ => false) "lodash" "/w/a.ts"
    (by decide) (by decide) (by decide) (by decide)

/-- C10: every result of `resolveImportPath` satisfies the invariant that
`exists` is true exactly when `resolvedPath` is non-null, and that an
`error` is present only on a failed resolution. -/
theorem resolveImportPath_result_invariant
    (fs : String → Bool) (importPath fromFile : String) :
    ((resolveImportPath fs importPath fromFile).«exists» = true
      ↔ ¬ ((resolveImportPath fs importPath fromFile).resolvedPath = none))
    ∧ (¬ ((resolveImportPath fs importPath fromFile).error = none)
      → (resolveImportPath fs importPath fromFile).«exists» = false) := by
  unfold resolveImportPath
  split
  · simp
  · split
    · simp
    · cases h : probeCandidates fs (pathResolve (dirname fromFile) importPath) <;>
        simp [h]

/-- When the `.ts` candidate exists the first probe of the extension loop
already hits, whatever else exists. -/
theorem probeCandidates_ts (fs : String → Bool) (r : String)
    (h : fs (r ++ ".ts") = true) : probeCandidates fs r = some (r ++ ".ts") := by
  unfold probeCandidates extensions
  simp [List.findSome?_cons, h]

/-- When no suffixed candidate exists but the literal path does, the empty
extension at the end of the loop returns the literal path. -/
theorem probeCandidates_literal (fs : String → Bool) (r : String)
    (h7 : ∀ e ∈ [".ts", ".tsx", ".js", ".jsx", ".mts", ".mjs", ".cjs"],
      fs (r ++ e) = false)
    (hlit : fs r = true) : probeCandidates fs r = some r := by
  have hts := h7 ".ts" (by simp)
  have htsx := h7 ".tsx" (by simp)
  have hjs := h7 ".js" (by simp)
  have hjsx := h7 ".jsx" (by simp)
  have hmts := h7 ".mts" (by simp)
  have hmjs := h7 ".mjs" (by simp)
  have hcjs := h7 ".cjs" (by simp)
  have hempty : fs (r ++ "") = true := by rwa [String.append_empty]
  unfold probeCandidates extensions
  simp [List.findSome?_cons, hts, htsx, hjs, hjsx, hmts, hmjs, hcjs, hempty, hlit]

/-- C4 (counterexample): with both `/a/x` and `/a/x.ts` on disk,
`resolve("./x", "/a/f.ts")` returns `/a/x.ts`, not the literal path
`/a/x` the claim puts first. -/
theorem resolveImportPath_literal_not_first_cex :
    fsBoth "/a/x" = true
    ∧ resolveImportPath fsBoth "./x" "/a/f.ts"
        = ⟨some "/a/x.ts", true, none, none⟩
    ∧ ¬ ((resolveImportPath fsBoth "./x" "/a/f.ts").resolvedPath
        = some "/a/x") :=
  ⟨rfl, rfl, by decide⟩

/-- C4 (amended): for a relative or absolute specifier the probe order
puts the literal resolved path last inside the extension loop (the empty
extension closes the fixed list): the `.ts` candidate is probed first and
wins even when the literal path also exists, and the literal path is
returned only when no suffixed candidate exists. -/
theorem resolveImportPath_extension_order
    (fs : String → Bool) (importPath fromFile : String)
    (hrel : (jsStartsWith importPath "." || jsStartsWith importPath "/") = true)
    (hb : builtInModules.contains importPath = false)
    (hn : jsStartsWith importPath "node:" = false) :
    (fs (pathResolve (dirname fromFile) importPath ++ ".ts") = true →
      resolveImportPath fs importPath fromFile
        = ⟨some (pathResolve (dirname fromFile) importPath ++ ".ts"),
            true, none, none⟩)
    ∧ ((∀ e ∈ [".ts", ".tsx", ".js", ".jsx", ".mts", ".mjs", ".cjs"],
          fs (pathResolve (dirname fromFile) importPath ++ e) = false) →
        fs (pathResolve (dirname fromFile) importPath) = true →
        resolveImportPath fs importPath fromFile
          = ⟨some (pathResolve (dirname fromFile) importPath),
              true, none, none⟩) := by
  have hrel2 : jsStartsWith importPath "." = true
      ∨ jsStartsWith importPath "/" = true := by simpa using hrel
  have hcond : (!jsStartsWith importPath "." && !jsStartsWith importPath "/")
      = false := by
    rcases hrel2 with h | h <;> simp [h]
  constructor
  · intro hts
    unfold resolveImportPath
    rw [hb, hn, hcond]
    simp [probeCandidates_ts fs _ hts]
  · intro h7 hlit
    unfold resolveImportPath
    rw [hb, hn, hcond]
    simp [probeCandidates_literal fs _ h7 hlit]

/-- C4 witness: on the two-file filesystem of the counterexample the first
conjunct of the amended claim applies at `./x` from `/a/f.ts`. -/
theorem resolveImportPath_extension_order_witness :
    fsBoth (pathResolve (dirname "/a/f.ts") "./x" ++ ".ts") = true
    ∧ resolveImportPath fsBoth "./x" "/a/f.ts"
        = ⟨some (pathResolve (dirname "/a/f.ts") "./x" ++ ".ts"),
            true, none, none⟩ :=
  ⟨by decide,
    (resolveImportPath_extension_order fsBoth "./x" "/a/f.ts"
      (by decide) (by decide) (by decide)).1 (by decide)⟩

/-- C10 witness: a failed relative resolution carries an error and reports
`exists = false`. -/
theorem resolveImportPath_result_invariant_witness :
    ¬ ((resolveImportPath (fun _ => false) "./x" "/a/f.ts").error = none)
    ∧ (resolveImportPath (fun _ => false) "./x" "/a/f.ts").«exists» = false :=
  ⟨by decide,
    (resolveImportPath_result_invariant (fun _ => false) "./x" "/a/f.ts").2
      (by decide)⟩

/-- C5 (counterexample): on a file whose parse fails, `validateCall`
reports the function as not found with confidence 0 instead of propagating
the parse error. -/
theorem validateFunctionCall_parse_error_cex :
    validateFunctionCall
        (.error (.analysisError "Failed to parse file: Unexpected token"
          (some "/broken.ts")))
        "f" [] (some "/broken.ts")
      = ⟨false, none, "f()", some "Function 'f' not found in /broken.ts", 0⟩ :=
  rfl

/-- C5 (amended): a parse failure is swallowed by `getSignatures` (its
catch returns the empty signature list), so a single-file
`validateCall` query on an unparseable file returns the function-not-found
result (invalid, confidence 0) for every error value, function name and
argument list, rather than propagating the error. -/
theorem validateFunctionCall_parse_error_swallowed
    (e : JsError) (functionName : String) (args : List String) (fp : String)
    (hfp : ¬ (fp = "")) :
    validateFunctionCall (.error e) functionName args (some fp)
      = ⟨false, none, actualSig functionName args,
          some ("Function '" ++ functionName ++ "' not found in " ++ fp), 0⟩ := by
  unfold validateFunctionCall getSignatures
  simp [hfp]

/-- C5 witness: the amended claim applied at a concrete parse error. -/
theorem validateFunctionCall_parse_error_swallowed_witness :
    validateFunctionCall (.error (.otherError "boom")) "g" ["1", "2"]
        (some "/b.ts")
      = ⟨false, none, actualSig "g" ["1", "2"],
          some ("Function '" ++ "g" ++ "' not found in " ++ "/b.ts"), 0⟩ :=
  validateFunctionCall_parse_error_swallowed (.otherError "boom") "g"
    ["1", "2"] "/b.ts" (by decide)

/-- C7: when a signature for the name is found in the file, the validator
compares the argument count against `minArgs` (non-optional parameters)
and `maxArgs` (all parameters): too few arguments yield the invalid
`Expected at least` result, too many the invalid `Expected at most`
result, anything in between is valid — each with confidence 1. -/
theorem validateFunctionCall_arity
    (parsed : Except JsError (List Stmt)) (functionName : String)
    (args : List String) (fp : String) (sig : FunctionSignature)
    (hfp : ¬ (fp = ""))
    (hfind : (getSignatures parsed fp).find? (fun s => s.name == functionName)
      = some sig) :
    (args.length < (sig.parameters.filter (fun p => !p.optional)).length →
      validateFunctionCall parsed functionName args (some fp)
        = ⟨false, some (formatSignature sig), actualSig functionName args,
            some ("Expected at least "
              ++ toString (sig.parameters.filter (fun p => !p.optional)).length
              ++ " arguments, got " ++ toString args.length), 1⟩)
    ∧ (args.length > sig.parameters.length →
      validateFunctionCall parsed functionName args (some fp)
        = ⟨false, some (formatSignature sig), actualSig functionName args,
            some ("Expected at most " ++ toString sig.parameters.length
              ++ " arguments, got " ++ toString args.length), 1⟩)
    ∧ ((sig.parameters.filter (fun p => !p.optional)).length ≤ args.length →
        args.length ≤ sig.parameters.length →
      validateFunctionCall parsed functionName args (some fp)
        = ⟨true, some (formatSignature sig), actualSig functionName args,
            none, 1⟩) := by
  have hminmax : (sig.parameters.filter (fun p => !p.optional)).length
      ≤ sig.parameters.length := List.length_filter_le _ _
  unfold validateFunctionCall
  simp only [Option.getD_some, if_neg hfp, hfind]
  refine ⟨?_, ?_, ?_⟩
  · intro h
    rw [if_pos h]
  · intro h
    rw [if_neg (by omega), if_pos h]
  · intro h1 h2
    rw [if_neg (by omega), if_neg (by omega)]

/-- C7 witness: for `function f(a, b?)` one argument is valid and three
arguments are invalid with `Expected at most 2 arguments, got 3`, both
with confidence 1. -/
theorem validateFunctionCall_arity_witness :
    validateFunctionCall (.ok fDemoProg) "f" ["x"] (some "/m.ts")
      = ⟨true, some "f(a, b?)", "f(x)", none, 1⟩
    ∧ validateFunctionCall (.ok fDemoProg) "f" ["x", "y", "z"] (some "/m.ts")
      = ⟨false, some "f(a, b?)", "f(x, y, z)",
          some "Expected at most 2 arguments, got 3", 1⟩ := by
  have h := validateFunctionCall_arity (.ok fDemoProg) "f" ["x"] "/m.ts"
    ⟨"f", [⟨"a", none, false⟩, ⟨"b", none, true⟩], none, "/m.ts", false, false⟩
    (by decide) (by decide)
  have h3 := validateFunctionCall_arity (.ok fDemoProg) "f" ["x", "y", "z"]
    "/m.ts"
    ⟨"f", [⟨"a", none, false⟩, ⟨"b", none, true⟩], none, "/m.ts", false, false⟩
    (by decide) (by decide)
  exact ⟨(h.2.2 (by decide) (by decide)).trans (by decide),
    (h3.2.1 (by decide)).trans (by decide)⟩

/-! ## Dependency graph lemmas (towards C8) -/

/-- The condition under which one import contributes a path to its file's
dependency set: a relative or absolute specifier whose resolution exists
and resolves to that (non-empty) path. -/
def resolvesTo (fs : String → Bool) (fromFile : String) (imp : ImportInfo)
    (p : String) : Prop :=
  (jsStartsWith imp.path "." || jsStartsWith imp.path "/") = true
  ∧ (resolveImportPath fs imp.path fromFile).resolvedPath = some p
  ∧ (resolveImportPath fs imp.path fromFile).«exists» = true
  ∧ ¬ (p = "")

theorem mem_addDep (x p : String) (deps : List String) :
    x ∈ addDep deps p ↔ x ∈ deps ∨ x = p := by
  unfold addDep
  split
  · rename_i h
    constructor
    · exact Or.inl
    · rintro (hx | rfl)
      · exact hx
      · simpa using h
  · simp [List.mem_append]

theorem mem_depStep (fs : String → Bool) (f x : String) (deps : List String)
    (imp : ImportInfo) :
    x ∈ depStep fs f deps imp ↔ x ∈ deps ∨ resolvesTo fs f imp x := by
  unfold depStep resolvesTo
  split
  · rename_i h
    have : ¬ ((jsStartsWith imp.path "." || jsStartsWith imp.path "/") = true) := by
      intro hc
      rcases Bool.or_eq_true_iff.mp hc with h1 | h1 <;> simp [h1] at h
    tauto
  · rename_i h
    have hc : (jsStartsWith imp.path "." || jsStartsWith imp.path "/") = true := by
      revert h
      cases jsStartsWith imp.path "." <;> cases jsStartsWith imp.path "/" <;> simp
    cases hres : (resolveImportPath fs imp.path f).resolvedPath with
    | none => simp [hres, hc]
    | some p =>
      simp only [hres]
      split
      · rename_i hkeep
        rw [mem_addDep]
        have hkeep2 := Bool.and_eq_true_iff.mp hkeep
        constructor
        · rintro (hx | rfl)
          · exact Or.inl hx
          · refine Or.inr ⟨hc, rfl, hkeep2.1, ?_⟩
            have := hkeep2.2
            simpa using this
        · rintro (hx | ⟨_, hp, hex, hne⟩)
          · exact Or.inl hx
          · obtain rfl : p = x := by simpa using hp
            exact Or.inr rfl
      · rename_i hkeep
        constructor
        · exact Or.inl
        · rintro (hx | ⟨_, hp, hex, hne⟩)
          · exact hx
          · obtain rfl : p = x := by simpa using hp
            exfalso
            apply hkeep
            simp [hex, hne]

theorem mem_foldl_depStep (fs : String → Bool) (f x : String)
    (l : List ImportInfo) (init : List String) :
    x ∈ l.foldl (depStep fs f) init
      ↔ x ∈ init ∨ ∃ imp ∈ l, resolvesTo fs f imp x := by
  induction l generalizing init with
  | nil => simp
  | cons hd tl ih =>
    rw [List.foldl_cons, ih, mem_depStep]
    constructor
    · rintro ((hx | hr) | ⟨imp, hmem, hr⟩)
      · exact Or.inl hx
      · exact Or.inr ⟨hd, by simp, hr⟩
      · exact Or.inr ⟨imp, by simp [hmem], hr⟩
    · rintro (hx | ⟨imp, hmem, hr⟩)
      · exact Or.inl (Or.inl hx)
      · rcases List.mem_cons.mp hmem with rfl | hmem2
        · exact Or.inl (Or.inr hr)
        · exact Or.inr ⟨imp, hmem2, hr⟩

theorem mem_fileDependencies (fs : String → Bool)
    (importsOf : String → List ImportInfo) (f x : String) :
    x ∈ fileDependencies fs importsOf f
      ↔ ∃ imp ∈ importsOf f, resolvesTo fs f imp x := by
  unfold fileDependencies
  rw [mem_foldl_depStep]
  simp

theorem foldl_append_if {α : Type} (p : α → Bool) (l init : List α) :
    l.foldl (fun acc x => if p x then acc ++ [x] else acc) init
      = init ++ l.filter p := by
  induction l generalizing init with
  | nil => simp
  | cons hd tl ih =>
    rw [List.foldl_cons, List.filter_cons]
    by_cases h : p hd
    · rw [if_pos h, if_pos h, ih, List.append_assoc]
      rfl
    · rw [if_neg h, if_neg h, ih]

theorem findImporters_eq_filter (fs : String → Bool)
    (importsOf : String → List ImportInfo) (fp : String)
    (allFiles : List String) :
    findImporters fs importsOf fp allFiles
      = allFiles.filter (fun file => (importsOf file).any (fun imp =>
          (resolveImportPath fs imp.path file).resolvedPath == some fp)) := by
  unfold findImporters
  rw [foldl_append_if]
  rfl

/-- C8: when file `a` imports file `b` through a relative specifier whose
resolution exists and yields `b`, the graph built over `[a, b]` lists `b`
in the dependency set of `a`, `findImporters` on `b` finds `a` — and
conversely every path in any dependency set of that graph comes from a
relative (or absolute) specifier that resolved successfully to it, so
bare-package and unresolved specifiers are excluded. -/
theorem buildDependencyGraph_relative_import
    (fs : String → Bool) (importsOf : String → List ImportInfo)
    (a b : String) (imp : ImportInfo)
    (hab : ¬ (a = b))
    (hmem : imp ∈ importsOf a)
    (hres : resolvesTo fs a imp b) :
    (∃ deps, (buildDependencyGraph fs importsOf [a, b]).lookup a = some deps
      ∧ b ∈ deps)
    ∧ a ∈ findImporters fs importsOf b [a, b]
    ∧ (∀ f p deps,
        (buildDependencyGraph fs importsOf [a, b]).lookup f = some deps →
        p ∈ deps → ∃ imp2 ∈ importsOf f, resolvesTo fs f imp2 p) := by
  have hane : (a == b) = false := by simp [hab]
  have hgraph : buildDependencyGraph fs importsOf [a, b]
      = [(a, fileDependencies fs importsOf a),
         (b, fileDependencies fs importsOf b)] := by
    unfold buildDependencyGraph fileDependencies
    simp [mapSet, hane]
  refine ⟨?_, ?_, ?_⟩
  · refine ⟨fileDependencies fs importsOf a, ?_, ?_⟩
    · rw [hgraph]
      simp [List.lookup]
    · exact (mem_fileDependencies fs importsOf a b).mpr ⟨imp, hmem, hres⟩
  · rw [findImporters_eq_filter]
    refine List.mem_filter.mpr ⟨by simp, ?_⟩
    exact List.any_eq_true.mpr ⟨imp, hmem, by simp [hres.2.1]⟩
  · intro f p deps hlook hp
    rw [hgraph] at hlook
    by_cases hfa : f = a
    · subst hfa
      simp [List.lookup] at hlook
      subst hlook
      exact (mem_fileDependencies fs importsOf f p).mp hp
    · by_cases hfb : f = b
      · subst hfb
        have hfa2 : (f == a) = false := by simp [fun h => hfa h]
        simp [List.lookup, hfa2] at hlook
        subst hlook
        exact (mem_fileDependencies fs importsOf f p).mp hp
      · have hfa2 : (f == a) = false := by simp [hfa]
        have hfb2 : (f == b) = false := by simp [hfb]
        simp [List.lookup, hfa2, hfb2] at hlook

/-- C8 witness: `/w/a.ts` imports `./b.ts`, which resolves to `/w/b.ts`;
the graph over the two files records the dependency and `findImporters`
recovers the importer. -/
theorem buildDependencyGraph_relative_import_witness :
    (∃ deps,
      (buildDependencyGraph demoFs demoImportsOf
        ["/w/a.ts", "/w/b.ts"]).lookup "/w/a.ts" = some deps
      ∧ "/w/b.ts" ∈ deps)
    ∧ "/w/a.ts" ∈ findImporters demoFs demoImportsOf "/w/b.ts"
        ["/w/a.ts", "/w/b.ts"] := by
  have h := buildDependencyGraph_relative_import demoFs demoImportsOf
    "/w/a.ts" "/w/b.ts" ⟨"./b.ts", "./b.ts", ["b"], false⟩
    (by decide) (by decide) ⟨by decide, by decide, by decide, by decide⟩
  exact ⟨h.1, h.2.1⟩

end EpistemicCheck
